import Mathlib

/-!
# Verification of the EduNova booking backend (`src/server.js`)

Shallow embedding of the Express/MongoDB backend: the `Lesson` and `Order`
collections, and the route handlers `GET /lessons`, `GET /search`,
`PUT /lessons/:id`, `POST /orders`, `GET /orders`.

Modelling conventions:
* Strings from the JS side are represented as `List Char`.
* A MongoDB document id supplied by a client is a `RawId`: `wellFormed`
  records whether `new ObjectId(...)` would accept it (it throws a
  `BSONTypeError` otherwise), and `val` identifies the document it denotes.
* The database state is `DB`: the `lessons` and `orders` collections plus the
  module-global `dbConnectionError` flag every handler consults first.
* Mongoose `updateOne` / `findByIdAndUpdate` by `_id` touch the first
  matching document only.
* `POST /orders` additionally returns the list of database write events it
  performed, in order (`Ev.append` for `newOrder.save()`, `Ev.dec` for each
  `updateOne` of the `bulkWrite`), so that ordering and interleaving
  properties can be stated.
-/

namespace EduNova

/-- `chars s` is the character list of a string literal (JS strings are
modelled as `List Char`). -/
def chars (s : String) : List Char := s.data

/-- A lesson document, after the mongoose `Lesson` schema:
subject, location, price, spaces, icon, description, plus the Mongo `_id`. -/
structure Lesson where
  id : Nat
  subject : List Char
  location : List Char
  price : Int
  spaces : Int
  icon : List Char
  description : List Char
deriving DecidableEq, Repr

/-- A client-supplied document id string. `wellFormed` is true exactly when
`new ObjectId(...)` accepts it (otherwise it throws a `BSONTypeError`);
`val` is the document identity it denotes when well-formed. -/
structure RawId where
  val : Nat
  wellFormed : Bool
deriving DecidableEq, Repr

/-- One `{ lessonId, qty }` object of the `lessonIDs` array of an order
request body. -/
structure LineItem where
  lessonId : RawId
  qty : Int
deriving DecidableEq, Repr

/-- An order document, after the mongoose `Order` schema:
name, phone, lessonIDs, total, date. -/
structure OrderDoc where
  name : List Char
  phone : List Char
  lessonIDs : List LineItem
  total : Int
  date : Nat
deriving DecidableEq, Repr

/-- The database state: the two collections plus the module-global
`dbConnectionError` flag. -/
structure DB where
  dbConnectionError : Bool
  lessons : List Lesson
  orders : List OrderDoc
deriving DecidableEq, Repr

/-- `updateOne {_id: i} {$inc: {spaces: -q}}`: decrement `spaces` of the
first lesson whose `_id` is `i`; matching nothing is a silent no-op. -/
def decFirst : List Lesson → Nat → Int → List Lesson
  | [], _, _ => []
  | l :: ls, i, q =>
    if l.id = i then { l with spaces := l.spaces - q } :: ls
    else l :: decFirst ls i q

/-- `findByIdAndUpdate(i, {spaces: n})`: overwrite `spaces` of the first
lesson whose `_id` is `i`. -/
def setSpacesFirst : List Lesson → Nat → Int → List Lesson
  | [], _, _ => []
  | l :: ls, i, n =>
    if l.id = i then { l with spaces := n } :: ls
    else l :: setSpacesFirst ls i n

/-- A database write event performed by `POST /orders`. -/
inductive Ev where
  | append (o : OrderDoc)
  | dec (id : Nat) (qty : Int)
deriving DecidableEq, Repr

/-- Effect of one write event on the database state. -/
def applyEv (s : DB) : Ev → DB
  | .append o => { s with orders := s.orders ++ [o] }
  | .dec i q => { s with lessons := decFirst s.lessons i q }

/-- Response of `POST /orders` (`src/server.js` lines 213-260). -/
inductive OrderResp where
  /-- 503: `dbConnectionError` is set. -/
  | unavailable
  /-- 400: missing required fields (name, phone, or lessons). -/
  | validationFailed
  /-- 400: a lesson id in the order is invalid (`BSONTypeError`). -/
  | bsonError
  /-- 201: order created and lesson spaces updated. -/
  | created (o : OrderDoc)
deriving DecidableEq, Repr

/-- HTTP status code of a `POST /orders` response. -/
def OrderResp.code : OrderResp → Nat
  | .unavailable => 503
  | .validationFailed => 400
  | .bsonError => 400
  | .created _ => 201

/-- The body of a `POST /orders` request. -/
structure OrderReq where
  name : List Char
  phone : List Char
  lessonIDs : List LineItem
  total : Int
deriving DecidableEq, Repr

/-- The `newOrder` document `POST /orders` builds from the request body,
with `now` the value of `new Date()`. -/
def orderDocOf (req : OrderReq) (now : Nat) : OrderDoc :=
  { name := req.name, phone := req.phone, lessonIDs := req.lessonIDs,
    total := req.total, date := now }

/-- `POST /orders` (`src/server.js` lines 213-260), with `now` the value of
`new Date()`. Steps, exactly as in the handler:
1. return 503 if `dbConnectionError`;
2. return 400 if `!name || !phone || !lessonIDs || lessonIDs.length === 0`;
3. `newOrder.save()` — append the order document;
4. build `bulkOps` by mapping over `lessonIDs`; `new mongoose.Types.ObjectId`
   throws on the first ill-formed `lessonId`, which the `catch` turns into a
   400 `BSONTypeError` response (the saved order remains; no decrement ran);
5. `Lesson.bulkWrite(bulkOps)` — apply each unconditional
   `$inc: {spaces: -item.qty}` in order;
6. respond 201 with the order.
Also returns the write events performed, in order. -/
def postOrder (req : OrderReq) (now : Nat) (s : DB) : OrderResp × List Ev × DB :=
  if s.dbConnectionError then (.unavailable, [], s)
  else if req.name = [] ∨ req.phone = [] ∨ req.lessonIDs = [] then
    (.validationFailed, [], s)
  else
    let newOrder := orderDocOf req now
    let s1 := applyEv s (.append newOrder)
    if req.lessonIDs.all (fun it => it.lessonId.wellFormed) then
      let evs := req.lessonIDs.map (fun it => Ev.dec it.lessonId.val it.qty)
      (.created newOrder, Ev.append newOrder :: evs, evs.foldl applyEv s1)
    else
      (.bsonError, [Ev.append newOrder], s1)

/-! ## The search regex (`new RegExp(query, 'i')` used as a Mongo filter)

`GET /search` builds `new RegExp(query, 'i')` and filters on
`{ $or: [{subject: searchRegex}, {location: searchRegex}] }`, i.e. an
unanchored, case-insensitive regular-expression test against each field.
We model the fragment of JS regular expressions the handler's queries can
exercise through `'.'` (any character) and top-level `'|'` (alternation);
every other character matches itself case-insensitively. -/

/-- Case-insensitive match of one pattern atom against one character;
`'.'` matches any character. -/
def atomMatch (p c : Char) : Bool := p == '.' || p.toLower == c.toLower

/-- Match an alternative (a `'|'`-free pattern) at the start of `s`. -/
def matchHere : List Char → List Char → Bool
  | [], _ => true
  | _ :: _, [] => false
  | p :: ps, c :: cs => atomMatch p c && matchHere ps cs

/-- Unanchored match of an alternative: match at some position of `s`. -/
def matchFrom (ps : List Char) : List Char → Bool
  | [] => matchHere ps []
  | c :: cs => matchHere ps (c :: cs) || matchFrom ps cs

/-- Split a pattern into its top-level `'|'`-alternatives. -/
def splitBar : List Char → List (List Char)
  | [] => [[]]
  | c :: cs =>
    if c = '|' then [] :: splitBar cs
    else match splitBar cs with
      | [] => [[c]]
      | a :: as => (c :: a) :: as

/-- `searchRegex.test`-as-filter: the case-insensitive, unanchored regex test
the handler's Mongo query applies to a field. -/
def regexTestCI (pat s : List Char) : Bool :=
  (splitBar pat).any (fun alt => matchFrom alt s)

/-- JS regular-expression metacharacters: a pattern free of them is matched
purely literally. -/
def isMeta (c : Char) : Bool :=
  c = '.' || c = '*' || c = '+' || c = '?' || c = '^' || c = '$' ||
  c = '(' || c = ')' || c = '[' || c = ']' || c = '\x7b' || c = '\x7d' ||
  c = '|' || c = '\\'

/-- Case-insensitive substring containment, the spec's wording for `search`:
"subject or location contains `term` as a case-insensitive substring". -/
def containsCI (needle hay : List Char) : Bool :=
  ((hay.map Char.toLower).tails).any
    (fun t => (needle.map Char.toLower).isPrefixOf t)

/-! ## The remaining route handlers -/

/-- `GET /lessons` (`src/server.js` lines 130-143): status and body. -/
def getLessons (s : DB) : Nat × List Lesson :=
  if s.dbConnectionError then (503, []) else (200, s.lessons)

/-- `GET /search` (`src/server.js` lines 147-173): with no/empty `query`,
`Lesson.find({})`; otherwise filter by the case-insensitive regex on
subject or location. -/
def searchLessons (q : Option (List Char)) (s : DB) : Nat × List Lesson :=
  if s.dbConnectionError then (503, [])
  else match q with
    | none => (200, s.lessons)
    | some [] => (200, s.lessons)
    | some pat =>
      (200, s.lessons.filter
        (fun l => regexTestCI pat l.subject || regexTestCI pat l.location))

/-- Response of `PUT /lessons/:id` (`src/server.js` lines 177-210). -/
inductive PutResp where
  /-- 503: `dbConnectionError` is set. -/
  | unavailable
  /-- 400: `spaces` missing, not a number, or negative. -/
  | invalidSpaces
  /-- 400: the id is not a valid `ObjectId` (`BSONTypeError`). -/
  | invalidIdFormat
  /-- 404: no lesson has this id. -/
  | notFound
  /-- 200: spaces updated; carries the updated document (`new: true`). -/
  | updated (l : Lesson)
deriving DecidableEq, Repr

/-- HTTP status code of a `PUT /lessons/:id` response. -/
def PutResp.code : PutResp → Nat
  | .unavailable => 503
  | .invalidSpaces => 400
  | .invalidIdFormat => 400
  | .notFound => 404
  | .updated _ => 200

/-- `PUT /lessons/:id` (`src/server.js` lines 177-210). In handler order:
503 on `dbConnectionError`; 400 unless `req.body.spaces` is a number `≥ 0`
(`spaces` is `none` when absent or not a number); 400 if `new ObjectId(id)`
throws; `findByIdAndUpdate(id, {spaces}, {new: true})`, yielding 404 when no
lesson matches and 200 with the updated document otherwise. -/
def putLesson (id : RawId) (spaces : Option Int) (s : DB) : PutResp × DB :=
  if s.dbConnectionError then (.unavailable, s)
  else match spaces with
    | none => (.invalidSpaces, s)
    | some n =>
      if n < 0 then (.invalidSpaces, s)
      else if ¬ id.wellFormed then (.invalidIdFormat, s)
      else match s.lessons.find? (fun l => l.id = id.val) with
        | none => (.notFound, s)
        | some l =>
          (.updated { l with spaces := n },
           { s with lessons := setSpacesFirst s.lessons id.val n })

/-- `GET /orders` (`src/server.js` lines 263-274): status and body. -/
def getOrders (s : DB) : Nat × List OrderDoc :=
  if s.dbConnectionError then (503, []) else (200, s.orders)

/-! ## The public operations as one step function -/

/-- One public request to the server, covering every route of
`src/server.js`. -/
inductive Req where
  | statusCheck
  | root
  | lessons
  | search (q : Option (List Char))
  | put (id : RawId) (spaces : Option Int)
  | order (r : OrderReq) (now : Nat)
  | orders
deriving Repr

/-- State effect of one request: which database state each handler leaves
behind. `GET /status`, `GET /`, `GET /lessons`, `GET /search` and
`GET /orders` only read. -/
def step : Req → DB → DB
  | .statusCheck, s => s
  | .root, s => s
  | .lessons, s => s
  | .search _, s => s
  | .put id spaces, s => (putLesson id spaces s).2
  | .order r now, s => (postOrder r now s).2.2
  | .orders, s => s

/-! ## Interleavings (for the concurrency analysis) -/

/-- Fuel-indexed worker for `merges`; the fuel dominates the total length
of the two lists. -/
def mergesFuel : Nat → List Ev → List Ev → List (List Ev)
  | _, [], ys => [ys]
  | _, x :: xs, [] => [x :: xs]
  | 0, xs, ys => [xs ++ ys]
  | n + 1, x :: xs, y :: ys =>
    (mergesFuel n xs (y :: ys)).map (fun t => x :: t) ++
    (mergesFuel n (x :: xs) ys).map (fun t => y :: t)

/-- All order-preserving merges of two event sequences: the possible
record-level interleavings of two concurrent requests whose database
writes are the given atomic events. -/
def merges (xs ys : List Ev) : List (List Ev) :=
  mergesFuel (xs.length + ys.length) xs ys

/-- `spaces` of the first lesson with the given id, if any. -/
def spacesOf (s : DB) (i : Nat) : Option Int :=
  (s.lessons.find? (fun l => l.id = i)).map Lesson.spaces

/-! ## Concrete fixtures (drawn from the seed catalog of `seedDatabase`) -/

/-- The first seeded lesson, with `_id` modelled as `1`. -/
def mathsLesson : Lesson :=
  { id := 1, subject := chars "Mathematics", location := chars "London",
    price := 100, spaces := 5, icon := chars "fa-calculator",
    description := chars "Advanced calculus and algebra." }

/-- The seeded chemistry lesson with `_id` modelled as `2`, after two orders
have brought its spaces down to `3` (the spec's two-item scenario). -/
def chemLesson : Lesson :=
  { id := 2, subject := chars "Chemistry", location := chars "Birmingham",
    price := 90, spaces := 3, icon := chars "fa-flask",
    description := chars "Organic and inorganic chemistry." }

/-- The seeded biology lesson with `_id` modelled as `3`. -/
def bioLesson : Lesson :=
  { id := 3, subject := chars "Biology", location := chars "Leeds",
    price := 80, spaces := 5, icon := chars "fa-dna",
    description := chars "Cellular structure and genetics." }

/-- A connected database holding three of the seeded lessons and no orders. -/
def seededDB : DB :=
  { dbConnectionError := false,
    lessons := [mathsLesson, chemLesson, bioLesson], orders := [] }

/-- A valid single-item order request: 2 places of lesson `1`. -/
def okOrderReq : OrderReq :=
  { name := chars "Ann", phone := chars "0101",
    lessonIDs := [{ lessonId := { val := 1, wellFormed := true }, qty := 2 }],
    total := 200 }

/-- An order of 6 places of lesson `1` (which has only 5). -/
def oversellReq : OrderReq :=
  { name := chars "Bea", phone := chars "0202",
    lessonIDs := [{ lessonId := { val := 1, wellFormed := true }, qty := 6 }],
    total := 600 }

/-- The spec's two-item scenario: 2 places of lesson `1`, then 100 places of
lesson `2`, which has only 3. -/
def twoItemReq : OrderReq :=
  { name := chars "Cal", phone := chars "0303",
    lessonIDs := [{ lessonId := { val := 1, wellFormed := true }, qty := 2 },
                  { lessonId := { val := 2, wellFormed := true }, qty := 100 }],
    total := 9200 }

/-- A request whose single line item has quantity `0`, violating the
"every quantity a positive integer" input constraint. -/
def zeroQtyReq : OrderReq :=
  { name := chars "Dee", phone := chars "0404",
    lessonIDs := [{ lessonId := { val := 1, wellFormed := true }, qty := 0 }],
    total := 0 }

/-- A request whose single lesson id is not a well-formed ObjectId. -/
def badIdReq : OrderReq :=
  { name := chars "Edh", phone := chars "0505",
    lessonIDs := [{ lessonId := { val := 5, wellFormed := false }, qty := 1 }],
    total := 100 }

/-- A request with an empty customer name. -/
def emptyNameReq : OrderReq :=
  { name := [], phone := chars "0606",
    lessonIDs := [{ lessonId := { val := 1, wellFormed := true }, qty := 1 }],
    total := 100 }

/-- First of two concurrent requests, each for 3 places of lesson `1`. -/
def raceReq1 : OrderReq :=
  { name := chars "Eve", phone := chars "0707",
    lessonIDs := [{ lessonId := { val := 1, wellFormed := true }, qty := 3 }],
    total := 300 }

/-- Second of two concurrent requests, each for 3 places of lesson `1`. -/
def raceReq2 : OrderReq :=
  { name := chars "Gil", phone := chars "0808",
    lessonIDs := [{ lessonId := { val := 1, wellFormed := true }, qty := 3 }],
    total := 300 }

/-! ## Helper lemmas -/

/-- Folding only `dec` events over a state leaves `orders` untouched. -/
theorem orders_foldl_dec (evs : List Ev) (s : DB)
    (h : ∀ e ∈ evs, ∃ i q, e = Ev.dec i q) :
    (evs.foldl applyEv s).orders = s.orders := by
  induction evs generalizing s with
  | nil => rfl
  | cons e es ih =>
    obtain ⟨i, q, rfl⟩ := h e (List.mem_cons_self e es)
    simpa [applyEv] using ih (applyEv s (.dec i q))
      (fun e' he' => h e' (List.mem_cons_of_mem _ he'))

/-- `PUT /lessons/:id` never touches the orders collection. -/
theorem putLesson_orders (id : RawId) (spaces : Option Int) (s : DB) :
    (putLesson id spaces s).2.orders = s.orders := by
  unfold putLesson
  repeat' split
  all_goals rfl

/-- `POST /orders` either leaves the orders collection unchanged
(503 or validation failure) or appends exactly the new order document. -/
theorem postOrder_orders (req : OrderReq) (now : Nat) (s : DB) :
    (postOrder req now s).2.2.orders = s.orders ∨
    (postOrder req now s).2.2.orders = s.orders ++ [orderDocOf req now] := by
  unfold postOrder
  split
  · exact Or.inl rfl
  split
  · exact Or.inl rfl
  split
  · right
    rw [orders_foldl_dec]
    · rfl
    · intro e he
      obtain ⟨it, _, rfl⟩ := List.mem_map.mp he
      exact ⟨_, _, rfl⟩
  · exact Or.inr rfl

/-- A pattern without `'|'` is its own single alternative. -/
theorem splitBar_of_not_mem (pat : List Char) (h : '|' ∉ pat) :
    splitBar pat = [pat] := by
  induction pat with
  | nil => rfl
  | cons c cs ih =>
    simp only [List.mem_cons, not_or] at h
    have h1 : ¬c = '|' := fun hc => h.1 hc.symm
    simp [splitBar, h1, ih h.2]

/-- On a dot-free alternative, an anchored match is a case-insensitive
prefix test. -/
theorem matchHere_eq_prefix (ps : List Char) (h : '.' ∉ ps) (s : List Char) :
    matchHere ps s = (ps.map Char.toLower).isPrefixOf (s.map Char.toLower) := by
  induction ps generalizing s with
  | nil => cases s <;> rfl
  | cons p ps ih =>
    simp only [List.mem_cons, not_or] at h
    cases s with
    | nil => rfl
    | cons c cs =>
      have h1 : (p == '.') = false :=
        beq_eq_false_iff_ne.mpr (fun hp => h.1 hp.symm)
      simp [matchHere, atomMatch, List.isPrefixOf, h1, ih h.2]

/-- On a dot-free alternative, the unanchored match is case-insensitive
substring containment. -/
theorem matchFrom_eq_containsCI (ps : List Char) (h : '.' ∉ ps)
    (s : List Char) :
    matchFrom ps s = containsCI ps s := by
  induction s with
  | nil =>
    simp [matchFrom, containsCI, matchHere_eq_prefix ps h]
  | cons c cs ih =>
    simp only [matchFrom, containsCI, List.map_cons, List.tails_cons,
      List.any_cons, matchHere_eq_prefix ps h, List.map_cons] at ih ⊢
    rw [ih]

/-- On a metacharacter-free pattern, the handler's case-insensitive regex
test coincides with the spec's case-insensitive substring containment. -/
theorem regexTestCI_eq_containsCI (pat : List Char)
    (h : ∀ c ∈ pat, isMeta c = false) (s : List Char) :
    regexTestCI pat s = containsCI pat s := by
  have hbar : '|' ∉ pat := by
    intro hm
    have := h _ hm
    simp [isMeta] at this
  have hdot : '.' ∉ pat := by
    intro hm
    have := h _ hm
    simp [isMeta] at this
  simp [regexTestCI, splitBar_of_not_mem pat hbar,
    matchFrom_eq_containsCI pat hdot s]

/-- Pointwise effect of `findByIdAndUpdate(i, {spaces: n})`: every position
either keeps its document or keeps it with only `spaces` overwritten. -/
theorem setSpacesFirst_get? (ls : List Lesson) (i : Nat) (n : Int) (k : Nat) :
    (setSpacesFirst ls i n)[k]? = ls[k]? ∨
    ∃ l, ls[k]? = some l ∧ l.id = i ∧
      (setSpacesFirst ls i n)[k]? = some { l with spaces := n } := by
  induction ls generalizing k with
  | nil => exact Or.inl rfl
  | cons a as ih =>
    by_cases ha : a.id = i
    · cases k with
      | zero => exact Or.inr ⟨a, by simp [setSpacesFirst, ha], ha,
          by simp [setSpacesFirst, ha]⟩
      | succ k => exact Or.inl (by simp [setSpacesFirst, ha])
    · cases k with
      | zero => exact Or.inl (by simp [setSpacesFirst, ha])
      | succ k =>
        rcases ih k with h | ⟨l, hl, hid, hw⟩
        · exact Or.inl (by simpa [setSpacesFirst, ha] using h)
        · exact Or.inr ⟨l, by simpa [setSpacesFirst, ha] using hl, hid,
            by simpa [setSpacesFirst, ha] using hw⟩

/-! ## Claims -/

/-- C1: the claim — `spacesAvailable` never becomes negative, a line item's
decrement being applied only when the lesson exists and
`spacesAvailable ≥ quantity` — is violated by `POST /orders`: the handler
decrements unconditionally via `$inc`, so an order of 6 places on the seeded
lesson with 5 spaces is answered 201 and leaves `spaces = -1`. -/
theorem postOrder_drives_spaces_negative :
    (postOrder oversellReq 7 seededDB).1.code = 201 ∧
    spacesOf (postOrder oversellReq 7 seededDB).2.2 1 = some (-1) := by
  decide

/-- C2: the claim — an order with an item whose quantity exceeds
availability gets `InsufficientCapacity` and every earlier decrement is
compensated — is violated: on `[{lesson 1, qty 2}, {lesson 2, qty 100}]`
with lesson 2 holding 3 spaces, the handler answers 201, the decrement of
lesson 1 survives (5 → 3), lesson 2 is driven to `-97`, and the order is
persisted. -/
theorem postOrder_no_compensation :
    (postOrder twoItemReq 7 seededDB).1.code = 201 ∧
    spacesOf (postOrder twoItemReq 7 seededDB).2.2 1 = some 3 ∧
    spacesOf (postOrder twoItemReq 7 seededDB).2.2 2 = some (-97) ∧
    (postOrder twoItemReq 7 seededDB).2.2.orders = [orderDocOf twoItemReq 7] := by
  decide

/-- C3 (counterexample): a request whose line item has quantity `0` — not a
positive integer, so an input-constraint violation — is not answered
`ValidationFailed`: the handler answers 201 and persists the order, a side
effect. -/
theorem postOrder_zero_qty_accepted :
    (postOrder zeroQtyReq 7 seededDB).1 = .created (orderDocOf zeroQtyReq 7) ∧
    (postOrder zeroQtyReq 7 seededDB).2.2.orders ≠ seededDB.orders := by
  decide

/-- C3 (amended): the handler validates only presence — an empty
`customerName`, empty `customerPhone`, or empty `lineItems` is answered
`ValidationFailed` (400) with no database write and no state change;
quantity positivity and lesson existence are not validated. -/
theorem postOrder_validation (req : OrderReq) (now : Nat) (s : DB)
    (hdb : s.dbConnectionError = false)
    (h : req.name = [] ∨ req.phone = [] ∨ req.lessonIDs = []) :
    postOrder req now s = (.validationFailed, [], s) := by
  unfold postOrder
  rw [hdb]
  simp [h]

/-- C3 (witness): the empty-name request on the seeded database is answered
`ValidationFailed` with the state unchanged. -/
theorem postOrder_validation_witness :
    postOrder emptyNameReq 7 seededDB = (.validationFailed, [], seededDB) :=
  postOrder_validation emptyNameReq 7 seededDB rfl (Or.inl rfl)

/-- C4 (counterexample): the claim — the Order is persisted only after all
line items are reserved, and no Order is appended when a reservation fails —
is violated twice over: on a valid request the write trace starts with the
order append and the decrement comes after it; and on a request whose lesson
id is ill-formed the decrement phase fails (400) yet the order stays
appended. -/
theorem postOrder_saves_before_decrements_cex :
    (postOrder okOrderReq 7 seededDB).2.1
      = [Ev.append (orderDocOf okOrderReq 7), Ev.dec 1 2] ∧
    (postOrder badIdReq 7 seededDB).1.code = 400 ∧
    (postOrder badIdReq 7 seededDB).2.2.orders
      = seededDB.orders ++ [orderDocOf badIdReq 7] := by
  decide

/-- C4 (amended): on every request that passes validation, `POST /orders`
persists the Order record first — the append is the head of the write trace
and every later write is a capacity decrement — and the Order remains
appended whether the decrement phase runs or fails. -/
theorem postOrder_append_first (req : OrderReq) (now : Nat) (s : DB)
    (hdb : s.dbConnectionError = false)
    (hv : ¬(req.name = [] ∨ req.phone = [] ∨ req.lessonIDs = [])) :
    (postOrder req now s).2.2.orders = s.orders ++ [orderDocOf req now] ∧
    (postOrder req now s).2.1.head? = some (.append (orderDocOf req now)) ∧
    ∀ e ∈ (postOrder req now s).2.1.tail, ∃ i q, e = Ev.dec i q := by
  unfold postOrder
  rw [hdb]
  simp only [Bool.false_eq_true, if_false, if_neg hv]
  split
  · refine ⟨?_, rfl, ?_⟩
    · rw [orders_foldl_dec]
      · rfl
      · intro e he
        obtain ⟨it, _, rfl⟩ := List.mem_map.mp he
        exact ⟨_, _, rfl⟩
    · intro e he
      obtain ⟨it, _, rfl⟩ := List.mem_map.mp (by simpa using he)
      exact ⟨_, _, rfl⟩
  · exact ⟨rfl, rfl, by simp⟩

/-- C4 (witness): on the valid single-item request against the seeded
database, the order append happens and heads the write trace. -/
theorem postOrder_append_first_witness :
    (postOrder okOrderReq 7 seededDB).2.2.orders
      = seededDB.orders ++ [orderDocOf okOrderReq 7] ∧
    (postOrder okOrderReq 7 seededDB).2.1.head?
      = some (.append (orderDocOf okOrderReq 7)) :=
  have H := postOrder_append_first okOrderReq 7 seededDB rfl (by decide)
  ⟨H.1, H.2.1⟩

/-- C5 (counterexample): the claim — for every non-empty term, `search`
returns exactly the lessons containing the term as a case-insensitive
substring — fails on the term `"."`: the seeded mathematics lesson is
returned although neither its subject nor its location contains `"."`. -/
theorem search_dot_not_substring_cex :
    mathsLesson ∈ (searchLessons (some (chars ".")) seededDB).2 ∧
    containsCI (chars ".") mathsLesson.subject = false ∧
    containsCI (chars ".") mathsLesson.location = false := by
  decide

/-- C5 (amended): `search` with an absent or empty term behaves exactly as
`GET /lessons` (`listAll`); for every non-empty term free of
regular-expression metacharacters it returns exactly those lessons whose
subject or location contains the term as a case-insensitive substring (the
term is fed to `new RegExp(query, 'i')`, so terms with metacharacters are
matched as regular expressions instead). -/
theorem search_spec (s : DB) :
    (searchLessons none s = getLessons s ∧
     searchLessons (some []) s = getLessons s) ∧
    (∀ pat, pat ≠ [] → (∀ c ∈ pat, isMeta c = false) →
      s.dbConnectionError = false →
      searchLessons (some pat) s
        = (200, s.lessons.filter
            (fun l => containsCI pat l.subject || containsCI pat l.location))) := by
  constructor
  · cases hdb : s.dbConnectionError <;>
      simp [searchLessons, getLessons, hdb]
  · intro pat hne hmeta hdb
    have hpred : (fun l : Lesson =>
        regexTestCI pat l.subject || regexTestCI pat l.location)
        = (fun l : Lesson =>
        containsCI pat l.subject || containsCI pat l.location) := by
      funext l
      rw [regexTestCI_eq_containsCI pat hmeta, regexTestCI_eq_containsCI pat hmeta]
    cases pat with
    | nil => exact absurd rfl hne
    | cons c cs =>
      unfold searchLessons
      rw [hdb]
      simpa using congrArg (fun p => List.filter p s.lessons) hpred

/-- C5 (witness): searching the seeded database for `"lond"` returns exactly
the lessons whose subject or location contains it case-insensitively. -/
theorem search_spec_witness :
    searchLessons (some (chars "lond")) seededDB
      = (200, seededDB.lessons.filter
          (fun l => containsCI (chars "lond") l.subject ||
                    containsCI (chars "lond") l.location)) :=
  (search_spec seededDB).2 (chars "lond") (by decide) (by decide) rfl

/-- C6: `PUT /lessons/:id` rejects a request whose resulting `spaces` would
be negative with 400, leaving the state unchanged, and answers 404 when the
(well-formed) id names no existing lesson, also leaving the state
unchanged. -/
theorem putLesson_admin (id : RawId) (n : Int) (s : DB)
    (hdb : s.dbConnectionError = false) :
    (n < 0 → (putLesson id (some n) s).1.code = 400 ∧
      (putLesson id (some n) s).2 = s) ∧
    (0 ≤ n → id.wellFormed = true →
      s.lessons.find? (fun l => l.id = id.val) = none →
      (putLesson id (some n) s).1.code = 404 ∧
      (putLesson id (some n) s).2 = s) := by
  constructor
  · intro hn
    unfold putLesson
    rw [hdb]
    simp [hn, PutResp.code]
  · intro hn hwf hfind
    unfold putLesson
    rw [hdb]
    simp [not_lt.mpr hn, hwf, hfind, PutResp.code]

/-- C6 (witness): on the seeded database, setting lesson 1's spaces to `-2`
is answered 400 with the state unchanged, and updating the unknown id `9`
is answered 404 with the state unchanged. -/
theorem putLesson_admin_witness :
    ((putLesson { val := 1, wellFormed := true } (some (-2)) seededDB).1.code = 400 ∧
     (putLesson { val := 1, wellFormed := true } (some (-2)) seededDB).2 = seededDB) ∧
    ((putLesson { val := 9, wellFormed := true } (some 4) seededDB).1.code = 404 ∧
     (putLesson { val := 9, wellFormed := true } (some 4) seededDB).2 = seededDB) :=
  ⟨(putLesson_admin { val := 1, wellFormed := true } (-2) seededDB rfl).1 (by decide),
   (putLesson_admin { val := 9, wellFormed := true } 4 seededDB rfl).2
     (by decide) rfl (by decide)⟩

/-- C7: the claim — two concurrent qty-3 orders on the 5-space lesson give
exactly one success, one `InsufficientCapacity`, and final spaces 2 — is
violated: the handler's response never consults availability (both requests
are answered 201 on any connected state), and under every record-level
interleaving of the two requests' atomic writes the lesson ends at
`5 - 6 = -1`. -/
theorem concurrent_orders_oversell :
    (∀ s : DB, s.dbConnectionError = false →
      (postOrder raceReq1 7 s).1 = .created (orderDocOf raceReq1 7) ∧
      (postOrder raceReq2 9 s).1 = .created (orderDocOf raceReq2 9)) ∧
    ((merges (postOrder raceReq1 7 seededDB).2.1
             (postOrder raceReq2 9 seededDB).2.1).all
      (fun t => spacesOf (t.foldl applyEv seededDB) 1 == some (-1))) = true := by
  constructor
  · intro s hs
    have hv1 : ¬(raceReq1.name = [] ∨ raceReq1.phone = [] ∨
        raceReq1.lessonIDs = []) := by decide
    have hv2 : ¬(raceReq2.name = [] ∨ raceReq2.phone = [] ∨
        raceReq2.lessonIDs = []) := by decide
    have hw1 : raceReq1.lessonIDs.all (fun it => it.lessonId.wellFormed) = true := by
      decide
    have hw2 : raceReq2.lessonIDs.all (fun it => it.lessonId.wellFormed) = true := by
      decide
    constructor
    · unfold postOrder
      rw [hs]
      simp [hv1, hw1]
    · unfold postOrder
      rw [hs]
      simp [hv2, hw2]
  · decide

/-- C7 (witness): on the seeded database itself, both concurrent requests
are answered 201. -/
theorem concurrent_orders_oversell_witness :
    (postOrder raceReq1 7 seededDB).1 = .created (orderDocOf raceReq1 7) ∧
    (postOrder raceReq2 9 seededDB).1 = .created (orderDocOf raceReq2 9) :=
  concurrent_orders_oversell.1 seededDB rfl

/-- C8: the order store is append-only — every public operation of the
server leaves the previously persisted order records unchanged, at most
appending new ones. -/
theorem orders_append_only (r : Req) (s : DB) :
    ∃ tl, (step r s).orders = s.orders ++ tl := by
  cases r with
  | statusCheck => exact ⟨[], by simp [step]⟩
  | root => exact ⟨[], by simp [step]⟩
  | lessons => exact ⟨[], by simp [step]⟩
  | search q => exact ⟨[], by simp [step]⟩
  | orders => exact ⟨[], by simp [step]⟩
  | put id spaces => exact ⟨[], by simp [step, putLesson_orders]⟩
  | order rq now =>
    rcases postOrder_orders rq now s with h | h
    · exact ⟨[], by simp [step, h]⟩
    · exact ⟨[orderDocOf rq now], by simp [step, h]⟩

/-- C9: `search` hands the query to `new RegExp(query, 'i')`, treating it as
a regular-expression pattern rather than a literal substring: the query
`"a|b"` returns the seeded biology lesson although neither its subject nor
its location contains `"a|b"` as a (case-insensitive) substring. -/
theorem search_treats_query_as_regex :
    bioLesson ∈ (searchLessons (some (chars "a|b")) seededDB).2 ∧
    containsCI (chars "a|b") bioLesson.subject = false ∧
    containsCI (chars "a|b") bioLesson.location = false := by
  decide

/-- C10: a successful `PUT /lessons/:id` writes only the `spaces` field: the
orders and connection flag are untouched, at every catalog position the id,
subject, location, price, icon and description are unchanged, and every
lesson whose id differs from the requested one is unchanged entirely. -/
theorem putLesson_frame (id : RawId) (n : Int) (s : DB) (u : Lesson) (s' : DB)
    (h : putLesson id (some n) s = (.updated u, s')) :
    s'.orders = s.orders ∧
    s'.dbConnectionError = s.dbConnectionError ∧
    (∀ k : Nat,
      (s'.lessons[k]?).map Lesson.id = (s.lessons[k]?).map Lesson.id ∧
      (s'.lessons[k]?).map Lesson.subject = (s.lessons[k]?).map Lesson.subject ∧
      (s'.lessons[k]?).map Lesson.location = (s.lessons[k]?).map Lesson.location ∧
      (s'.lessons[k]?).map Lesson.price = (s.lessons[k]?).map Lesson.price ∧
      (s'.lessons[k]?).map Lesson.icon = (s.lessons[k]?).map Lesson.icon ∧
      (s'.lessons[k]?).map Lesson.description
        = (s.lessons[k]?).map Lesson.description) ∧
    (∀ k : Nat, ∀ l, s.lessons[k]? = some l → l.id ≠ id.val →
      s'.lessons[k]? = some l) := by
  have hs' : s' = { s with lessons := setSpacesFirst s.lessons id.val n } := by
    unfold putLesson at h
    cases hdb : s.dbConnectionError with
    | true => rw [hdb] at h; simp at h
    | false =>
      rw [hdb] at h
      by_cases hn : n < 0
      · simp [hn] at h
      · by_cases hwf : id.wellFormed
        · cases hfind : s.lessons.find? (fun l => l.id = id.val) with
          | none => simp [hn, hwf, hfind] at h
          | some l =>
            simp only [Bool.false_eq_true, if_false, hn, hwf, hfind,
              not_true_eq_false, not_false_eq_true, if_neg, if_pos] at h
            simp [hn, hwf, hfind] at h
            exact h.2.symm
        · simp [hn, hwf] at h
  subst hs'
  refine ⟨rfl, rfl, ?_, ?_⟩
  · intro k
    rcases setSpacesFirst_get? s.lessons id.val n k with hk | ⟨l, hl, _, hw⟩
    · simp [hk]
    · simp [hw, hl]
  · intro k l0 hl0 hid0
    rcases setSpacesFirst_get? s.lessons id.val n k with hk | ⟨l, hl, hid, _⟩
    · simpa only [hk] using hl0
    · rw [hl0] at hl
      cases Option.some.inj hl
      exact absurd hid hid0

/-- C10 (witness): setting lesson 1's spaces to `2` on the seeded database
keeps the orders, keeps lesson 1's subject, and leaves lesson 2 untouched. -/
theorem putLesson_frame_witness :
    ({ seededDB with
        lessons := [{ mathsLesson with spaces := 2 }, chemLesson, bioLesson] } : DB).orders
      = seededDB.orders ∧
    (({ seededDB with
        lessons := [{ mathsLesson with spaces := 2 }, chemLesson, bioLesson] } : DB).lessons[0]?).map
        Lesson.subject
      = (seededDB.lessons[0]?).map Lesson.subject ∧
    ({ seededDB with
        lessons := [{ mathsLesson with spaces := 2 }, chemLesson, bioLesson] } : DB).lessons[1]?
      = some chemLesson :=
  have H := putLesson_frame { val := 1, wellFormed := true } 2 seededDB
    { mathsLesson with spaces := 2 }
    { seededDB with
        lessons := [{ mathsLesson with spaces := 2 }, chemLesson, bioLesson] }
    (by decide)
  ⟨H.1, (H.2.2.1 0).2.1, H.2.2.2 1 chemLesson (by decide) (by decide)⟩

end EduNova
